import Mathlib

/-!
Verification of the document serialization and query-filter construction
layer of the Riftlol Store API (`src/main.py`).

The embedding models Python values that can occur in a stored document as
the inductive type `Val`, Python `dict`s as insertion-ordered association
lists with the usual unique-key discipline, and `datetime.datetime` as a
record of calendar/clock fields.  `serialize_doc`, the filter construction
of `list_products`, and the two listing endpoints are translated directly
from `src/main.py`; the external store collaborator is a parameter
returning `Except`, mirroring the `try/except` boundary in the handlers.
-/

set_option autoImplicit false

namespace Riftlol

/-- A naive `datetime.datetime` (no timezone, zero microseconds), the form
seeded and read back by this application. -/
structure Datetime where
  year : Nat
  month : Nat
  day : Nat
  hour : Nat
  minute : Nat
  second : Nat
deriving DecidableEq, Repr

/-- Zero-pad a numeric field to two digits, as Python date formatting does. -/
def pad2 (n : Nat) : String :=
  if n < 10 then "0" ++ toString n else toString n

/-- Zero-pad the year to four digits, as Python date formatting does. -/
def pad4 (n : Nat) : String :=
  if n < 10 then "000" ++ toString n
  else if n < 100 then "00" ++ toString n
  else if n < 1000 then "0" ++ toString n
  else toString n

/-- `datetime.isoformat()`: `YYYY-MM-DDTHH:MM:SS`. -/
def Datetime.isoformat (t : Datetime) : String :=
  pad4 t.year ++ "-" ++ pad2 t.month ++ "-" ++ pad2 t.day ++ "T" ++
    pad2 t.hour ++ ":" ++ pad2 t.minute ++ ":" ++ pad2 t.second

/-- `str(datetime)`: the ISO form with a space separator. -/
def Datetime.pyStr (t : Datetime) : String :=
  pad4 t.year ++ "-" ++ pad2 t.month ++ "-" ++ pad2 t.day ++ " " ++
    pad2 t.hour ++ ":" ++ pad2 t.minute ++ ":" ++ pad2 t.second

/-- A Python value as it can appear in a stored document: text, integer
number, boolean, `None`, a `datetime`, or a sequence / mapping of values.
(Float fields such as `price` are carried by `vNum` at the granularity the
claims need: no claim computes with numbers.) -/
inductive Val where
  | vStr : String → Val
  | vNum : Int → Val
  | vBool : Bool → Val
  | vNull : Val
  | vDt : Datetime → Val
  | vList : List Val → Val
  | vDict : List (String × Val) → Val
deriving Repr

/-- A stored document: a Python `dict`, i.e. an insertion-ordered mapping
from string keys to values. -/
abbrev Doc := List (String × Val)

/-- Python truthiness (`if v:`) for document values; `None` maps to false. -/
def truthy : Val → Bool
  | .vStr s => !(s == "")
  | .vNum n => !(n == 0)
  | .vBool b => b
  | .vNull => false
  | .vDt _ => true
  | .vList l => !l.isEmpty
  | .vDict l => !l.isEmpty

mutual

/-- Python `repr` of a value (container elements are rendered with `repr`;
string escaping inside containers is simplified to plain quoting, which is
exact for the identifier strings in scope). -/
def pyRepr : Val → String
  | .vStr s => "\x27" ++ s ++ "\x27"
  | .vNum n => toString n
  | .vBool b => if b then "True" else "False"
  | .vNull => "None"
  | .vDt t => "datetime.datetime(" ++ toString t.year ++ ", " ++ toString t.month ++
      ", " ++ toString t.day ++ ", " ++ toString t.hour ++ ", " ++ toString t.minute ++
      ", " ++ toString t.second ++ ")"
  | .vList l => "[" ++ pyReprList l ++ "]"
  | .vDict l => "\x7b" ++ pyReprKVs l ++ "\x7d"

/-- Comma-separated `repr`s of a list's elements. -/
def pyReprList : List Val → String
  | [] => ""
  | [v] => pyRepr v
  | v :: vs => pyRepr v ++ ", " ++ pyReprList vs

/-- Comma-separated `repr`s of a dict's entries. -/
def pyReprKVs : List (String × Val) → String
  | [] => ""
  | [(k, v)] => "\x27" ++ k ++ "\x27: " ++ pyRepr v
  | (k, v) :: kvs => "\x27" ++ k ++ "\x27: " ++ pyRepr v ++ ", " ++ pyReprKVs kvs

end

/-- Python `str()` of a value: identity on strings, `repr`-style rendering
elsewhere, the space-separated form for datetimes. -/
def pyStr : Val → String
  | .vStr s => s
  | .vDt t => t.pyStr
  | v => pyRepr v

/-- `d.get(k)`: the value stored under the first occurrence of `k`, if any. -/
def dget (d : Doc) (k : String) : Option Val :=
  match d with
  | [] => none
  | (k', v) :: rest => if k' = k then some v else dget rest k

/-- `k in d`: whether the document has an entry under key `k`. -/
def hasKey (d : Doc) (k : String) : Bool :=
  match d with
  | [] => false
  | (k', _) :: rest => if k' = k then true else hasKey rest k

/-- `d.pop(k)` (the dictionary after removal): drop the entry stored under
`k`.  On a well-formed dict there is at most one such entry. -/
def derase (d : Doc) (k : String) : Doc :=
  match d with
  | [] => []
  | (k', v) :: rest => if k' = k then derase rest k else (k', v) :: derase rest k

/-- `d[k] = x`: update the entry under `k` in place if present, otherwise
append a new entry at the end, preserving insertion order. -/
def dset (d : Doc) (k : String) (x : Val) : Doc :=
  if hasKey d k then
    d.map (fun p => (p.1, if p.1 = k then x else p.2))
  else
    d ++ [(k, x)]

/-- Lines 39-40 of `serialize_doc`: `if d.get("_id"): d["id"] = str(d.pop("_id"))`.
Note the condition is Python truthiness of the looked-up value, not key
presence. -/
def idStep (d : Doc) : Doc :=
  match dget d "_id" with
  | some v => if truthy v then dset (derase d "_id") "id" (.vStr (pyStr v)) else d
  | none => d

/-- The per-value body of the conversion loop in `serialize_doc`:
`v.isoformat()` if `isinstance(v, datetime)`, otherwise the value itself. -/
def convTop : Val → Val
  | .vDt t => .vStr t.isoformat
  | v => v

/-- Lines 42-44 of `serialize_doc`: the loop replacing every top-level
`datetime` value with its `isoformat()` string, in place, preserving
insertion order. -/
def dtStep (d : Doc) : Doc :=
  d.map (fun p => (p.1, convTop p.2))

/-- `serialize_doc` (src/main.py lines 37-45): copy the document, normalize
the store identifier, then convert top-level datetimes to ISO text. -/
def serialize_doc (doc : Doc) : Doc :=
  dtStep (idStep doc)

/-- Whether a value is already JSON-safe: text, number, boolean, null, or a
sequence / mapping built from JSON-safe values (in particular, no `datetime`
anywhere inside). -/
inductive JsonSafe : Val → Prop where
  | str (s : String) : JsonSafe (.vStr s)
  | num (n : Int) : JsonSafe (.vNum n)
  | bool (b : Bool) : JsonSafe (.vBool b)
  | null : JsonSafe .vNull
  | list (l : List Val) : (∀ v ∈ l, JsonSafe v) → JsonSafe (.vList l)
  | dict (l : List (String × Val)) : (∀ p ∈ l, JsonSafe p.2) → JsonSafe (.vDict l)

/-- The filter construction of `list_products` (src/main.py lines 149-153):
start from `\x7b\x7d`, add `category` only when the parameter is truthy
(present and non-empty), add `featured` whenever the parameter is present,
including `featured=False`. -/
def build_filt (category : Option String) (featured : Option Bool) : Doc :=
  let filt : Doc := []
  let filt :=
    match category with
    | some c => if c = "" then filt else dset filt "category" (.vStr c)
    | none => filt
  match featured with
  | some b => dset filt "featured" (.vBool b)
  | none => filt

/-- The external store's filtered read, `get_documents(collection, filt, limit)`
for the `product` collection: any failure surfaces as `Except.error`, which the
handlers catch.  It is the only fallible step inside the handlers' `try` blocks
(filter building and serialization are total). -/
abbrev Find := Doc → Int → Except String (List Doc)

/-- Body of `list_products` (src/main.py lines 148-158): build the filter,
read up to `limit` documents, serialize each; any store error degrades to
an empty list. -/
def list_products (find : Find) (category : Option String)
    (featured : Option Bool) (limit : Int) : List Doc :=
  match find (build_filt category featured) limit with
  | .ok docs => docs.map serialize_doc
  | .error _ => []

/-- Body of `featured_products` (src/main.py lines 163-167): read documents
with the fixed filter `featured=True`, serialize each; any store error
degrades to an empty list. -/
def featured_products (find : Find) (limit : Int) : List Doc :=
  match find [("featured", .vBool true)] limit with
  | .ok docs => docs.map serialize_doc
  | .error _ => []

/-- Modelled from the spec: the excluded API layer's input validation for an
integer query parameter declared `Query(default=d, ge=lo, le=hi)`
(src/main.py lines 145 and 162 declare the bounds; the enforcement itself
lives in the FastAPI framework, outside src/).  Per spec section 7, an
out-of-range value is rejected as a client validation error before the
handler body runs; an absent value takes the declared default. -/
def validate_query_int (lo hi dflt : Int) : Option Int → Except String Int
  | none => .ok dflt
  | some n => if lo ≤ n ∧ n ≤ hi then .ok n else .error "validation error"

/-- `GET /api/products` including its `limit` validation (`ge=1, le=100`,
default 24): a rejected limit never reaches the handler body or the store. -/
def list_products_endpoint (find : Find) (category : Option String)
    (featured : Option Bool) (limitParam : Option Int) : Except String (List Doc) :=
  (validate_query_int 1 100 24 limitParam).map
    (fun lim => list_products find category featured lim)

/-- `GET /api/featured` including its `limit` validation (`ge=1, le=24`,
default 8). -/
def featured_endpoint (find : Find) (limitParam : Option Int) :
    Except String (List Doc) :=
  (validate_query_int 1 24 8 limitParam).map
    (fun lim => featured_products find lim)

/-- A heap of document objects, for stating what `serialize_doc` does to its
argument object: references are allocation indices, `next` is the next fresh
index. -/
structure Heap where
  next : Nat
  cells : Nat → Option Doc

/-- Dereference a document object. -/
def Heap.read (h : Heap) (r : Nat) : Option Doc :=
  h.cells r

/-- Overwrite the contents of an existing document object. -/
def Heap.write (h : Heap) (r : Nat) (d : Doc) : Heap :=
  ⟨h.next, fun x => if x = r then some d else h.cells x⟩

/-- Allocate a fresh document object holding `d`. -/
def Heap.alloc (h : Heap) (d : Doc) : Nat × Heap :=
  (h.next, ⟨h.next + 1, fun x => if x = h.next then some d else h.cells x⟩)

/-- A heap is well formed when no address at or beyond `next` is allocated. -/
def Heap.WF (h : Heap) : Prop :=
  ∀ x, h.next ≤ x → h.cells x = none

/-- `serialize_doc` at the object level, making its use of the heap explicit:
`d = doc.copy()` allocates a fresh dict, and every subsequent mutation
(the `pop`, the `id` assignment, the datetime loop) writes to that fresh
object only.  Returns `none` when the argument is a dangling reference. -/
def serialize_doc_ref (h : Heap) (r : Nat) : Option (Nat × Heap) :=
  match h.read r with
  | none => none
  | some doc =>
    let a := h.alloc doc
    let h1 := (a.2).write a.1 (idStep doc)
    let h2 := h1.write a.1 (dtStep (idStep doc))
    some (a.1, h2)

/-! Basic lemmas about the dictionary operations. -/

theorem dget_dtStep (d : Doc) (k : String) :
    dget (dtStep d) k = (dget d k).map convTop := by
  induction d with
  | nil => rfl
  | cons p rest ih =>
    obtain ⟨k', v⟩ := p
    by_cases h : k' = k <;> simp [dtStep, dget, h] at ih ⊢ <;> simpa [dtStep] using ih

theorem hasKey_dtStep (d : Doc) (k : String) :
    hasKey (dtStep d) k = hasKey d k := by
  induction d with
  | nil => rfl
  | cons p rest ih =>
    obtain ⟨k', v⟩ := p
    by_cases h : k' = k <;> simp [dtStep, hasKey, h] at ih ⊢ <;> simpa [dtStep] using ih

theorem dget_derase_ne (d : Doc) (k k0 : String) (h : ¬k = k0) :
    dget (derase d k0) k = dget d k := by
  induction d with
  | nil => rfl
  | cons p rest ih =>
    obtain ⟨k', v⟩ := p
    by_cases h1 : k' = k0 <;> by_cases h2 : k' = k <;>
      simp_all [derase, dget]

theorem hasKey_derase_self (d : Doc) (k0 : String) :
    hasKey (derase d k0) k0 = false := by
  induction d with
  | nil => rfl
  | cons p rest ih =>
    obtain ⟨k', v⟩ := p
    by_cases h1 : k' = k0 <;> simp_all [derase, hasKey]

theorem dget_append_of_hasKey_false (d d' : Doc) (k : String)
    (h : hasKey d k = false) : dget (d ++ d') k = dget d' k := by
  induction d with
  | nil => rfl
  | cons p rest ih =>
    obtain ⟨k', v⟩ := p
    by_cases h1 : k' = k <;> simp_all [hasKey, dget]

theorem dget_setAll (d : Doc) (k0 : String) (x : Val) (h : hasKey d k0 = true) :
    dget (d.map (fun p => (p.1, if p.1 = k0 then x else p.2))) k0 = some x := by
  induction d with
  | nil => simp [hasKey] at h
  | cons p rest ih =>
    obtain ⟨k', v⟩ := p
    simp only [List.map_cons]
    by_cases h1 : k' = k0
    · simp [dget, h1]
    · have h2 : hasKey rest k0 = true := by simpa [hasKey, h1] using h
      simp [dget, h1, ih h2]

theorem dget_setAll_ne (d : Doc) (k k0 : String) (x : Val) (h : ¬k = k0) :
    dget (d.map (fun p => (p.1, if p.1 = k0 then x else p.2))) k = dget d k := by
  induction d with
  | nil => rfl
  | cons p rest ih =>
    obtain ⟨k', v⟩ := p
    have h' : ¬k0 = k := fun hh => h hh.symm
    simp only [List.map_cons]
    by_cases h1 : k' = k0
    · subst h1
      simp [dget, h', ih]
    · by_cases h2 : k' = k <;> simp [dget, h1, h2, ih, h]

theorem dget_append_single_ne (d : Doc) (k k0 : String) (x : Val) (h : ¬k = k0) :
    dget (d ++ [(k0, x)]) k = dget d k := by
  have h' : ¬k0 = k := fun hh => h hh.symm
  induction d with
  | nil => simp [dget, h']
  | cons p rest ih =>
    obtain ⟨k', v⟩ := p
    by_cases h2 : k' = k <;> simp [dget, h2, ih]

theorem dget_dset_self (d : Doc) (k0 : String) (x : Val) :
    dget (dset d k0 x) k0 = some x := by
  unfold dset
  by_cases h : hasKey d k0 = true
  · simp only [h, if_pos]
    exact dget_setAll d k0 x h
  · simp only [Bool.not_eq_true] at h
    simp only [h, Bool.false_eq_true, if_neg, not_false_iff]
    rw [dget_append_of_hasKey_false d _ k0 h]
    simp [dget]

theorem dget_dset_ne (d : Doc) (k k0 : String) (x : Val) (h : ¬k = k0) :
    dget (dset d k0 x) k = dget d k := by
  unfold dset
  by_cases hk : hasKey d k0 = true
  · simp only [hk, if_pos]
    exact dget_setAll_ne d k k0 x h
  · simp only [Bool.not_eq_true] at hk
    simp only [hk, Bool.false_eq_true, if_neg, not_false_iff]
    exact dget_append_single_ne d k k0 x h

theorem hasKey_setAll (d : Doc) (k k0 : String) (x : Val) :
    hasKey (d.map (fun p => (p.1, if p.1 = k0 then x else p.2))) k = hasKey d k := by
  induction d with
  | nil => rfl
  | cons p rest ih =>
    obtain ⟨k', v⟩ := p
    simp only [List.map_cons]
    by_cases h2 : k' = k <;> simp [hasKey, h2, ih]

theorem hasKey_append_single_ne (d : Doc) (k k0 : String) (x : Val) (h : ¬k = k0) :
    hasKey (d ++ [(k0, x)]) k = hasKey d k := by
  have h' : ¬k0 = k := fun hh => h hh.symm
  induction d with
  | nil => simp [hasKey, h']
  | cons p rest ih =>
    obtain ⟨k', v⟩ := p
    by_cases h2 : k' = k <;> simp [hasKey, h2, ih]

theorem hasKey_dset_ne (d : Doc) (k k0 : String) (x : Val) (h : ¬k = k0) :
    hasKey (dset d k0 x) k = hasKey d k := by
  unfold dset
  by_cases hk : hasKey d k0 = true
  · simp only [hk, if_pos]
    exact hasKey_setAll d k k0 x
  · simp only [Bool.not_eq_true] at hk
    simp only [hk, Bool.false_eq_true, if_neg, not_false_iff]
    exact hasKey_append_single_ne d k k0 x h

theorem hasKey_eq_isSome_dget (d : Doc) (k : String) :
    hasKey d k = (dget d k).isSome := by
  induction d with
  | nil => rfl
  | cons p rest ih =>
    obtain ⟨k', v⟩ := p
    by_cases h : k' = k <;> simp_all [hasKey, dget]

theorem dget_idStep_ne (d : Doc) (k : String) (h1 : ¬k = "_id") (h2 : ¬k = "id") :
    dget (idStep d) k = dget d k := by
  unfold idStep
  cases hv : dget d "_id" with
  | none => rfl
  | some v =>
    by_cases ht : truthy v = true
    · simp only [ht, if_pos]
      rw [dget_dset_ne _ _ _ _ h2, dget_derase_ne _ _ _ h1]
    · simp only [Bool.not_eq_true] at ht
      simp [ht]

theorem convTop_of_jsonSafe (v : Val) (h : JsonSafe v) : convTop v = v := by
  cases h <;> rfl

theorem convTop_not_vDt (v : Val) (t : Datetime) : convTop v ≠ .vDt t := by
  cases v <;> simp [convTop]

theorem convTop_idem (v : Val) : convTop (convTop v) = convTop v := by
  cases v <;> rfl

theorem convTop_of_not_truthy (v : Val) (h : truthy v = false) : convTop v = v := by
  cases v <;> simp_all [truthy, convTop]

theorem dget_serialize_ne (doc : Doc) (k : String) (h1 : ¬k = "_id") (h2 : ¬k = "id") :
    dget (serialize_doc doc) k = (dget doc k).map convTop := by
  unfold serialize_doc
  rw [dget_dtStep, dget_idStep_ne _ _ h1 h2]

/-! The claims. -/

/-- C1 (counterexample): the claim fails as stated.  A document whose
`"_id"` value is falsy — here the empty string — is passed through with the
raw `"_id"` key intact and no `"id"` key added, because `serialize_doc`
gates the renaming on `if d.get("_id"):`, i.e. on truthiness rather than
presence. -/
theorem serialize_doc_falsy_id_counterexample :
    hasKey (serialize_doc [("_id", Val.vStr "")]) "_id" = true ∧
    dget (serialize_doc [("_id", Val.vStr "")]) "id" = none :=
  ⟨rfl, rfl⟩

/-- C1 (amended): whenever the input carries `"_id"` with a truthy value,
the output drops the raw `"_id"` key and binds `"id"` to the canonical
string form of the identifier; when the `"_id"` value is falsy it is passed
through unchanged under the raw key and no `"id"` key is added (the output
has one exactly when the input already did); and a document without
`"_id"` never acquires one. -/
theorem serialize_doc_id_normalization_amended (doc : Doc) :
    (∀ v, dget doc "_id" = some v → truthy v = true →
      hasKey (serialize_doc doc) "_id" = false ∧
      dget (serialize_doc doc) "id" = some (.vStr (pyStr v))) ∧
    (∀ v, dget doc "_id" = some v → truthy v = false →
      dget (serialize_doc doc) "_id" = some v ∧
      hasKey (serialize_doc doc) "id" = hasKey doc "id") ∧
    (dget doc "_id" = none → hasKey (serialize_doc doc) "_id" = false) := by
  refine ⟨?_, ?_, ?_⟩
  · intro v hv ht
    have hid : idStep doc = dset (derase doc "_id") "id" (.vStr (pyStr v)) := by
      unfold idStep
      rw [hv]
      simp [ht]
    constructor
    · unfold serialize_doc
      rw [hasKey_dtStep, hid, hasKey_dset_ne _ _ _ _ (by decide), hasKey_derase_self]
    · unfold serialize_doc
      rw [dget_dtStep, hid, dget_dset_self]
      rfl
  · intro v hv ht
    have hid : idStep doc = doc := by
      unfold idStep
      rw [hv]
      simp [ht]
    constructor
    · unfold serialize_doc
      rw [hid, dget_dtStep, hv]
      simp [convTop_of_not_truthy v ht]
    · unfold serialize_doc
      rw [hid, hasKey_dtStep]
  · intro hv
    have hid : idStep doc = doc := by
      unfold idStep
      rw [hv]
    unfold serialize_doc
    rw [hid, hasKey_dtStep, hasKey_eq_isSome_dget, hv]
    rfl

/-- C1 (witness): the amended theorem applied to a document with a truthy
identifier and to one with a falsy identifier. -/
theorem serialize_doc_id_normalization_amended_witness :
    (hasKey (serialize_doc [("_id", Val.vStr "abc")]) "_id" = false ∧
      dget (serialize_doc [("_id", Val.vStr "abc")]) "id" = some (.vStr "abc")) ∧
    (dget (serialize_doc [("_id", Val.vStr "")]) "_id" = some (Val.vStr "") ∧
      hasKey (serialize_doc [("_id", Val.vStr "")]) "id" =
        hasKey [("_id", Val.vStr "")] "id") :=
  ⟨(serialize_doc_id_normalization_amended _).1 (Val.vStr "abc") rfl rfl,
   (serialize_doc_id_normalization_amended _).2.1 (Val.vStr "") rfl rfl⟩

/-- C2: for every valid combination of the optional inputs (a provided
category is non-empty text, per the data model), the equality filter binds
`"category"` exactly when category was provided, binds `"featured"` exactly
when featured was provided — including `featured = false`, which yields the
entry `("featured", false)`, distinct from omission — and contains no other
keys. -/
theorem build_filt_exact_keys (category : Option String) (featured : Option Bool)
    (hvalid : ∀ s, category = some s → ¬s = "") :
    dget (build_filt category featured) "category" = category.map Val.vStr ∧
    dget (build_filt category featured) "featured" = featured.map Val.vBool ∧
    ∀ p ∈ build_filt category featured, p.1 = "category" ∨ p.1 = "featured" := by
  cases category with
  | none =>
    cases featured with
    | none =>
      refine ⟨rfl, rfl, ?_⟩
      intro p hp
      simp [build_filt] at hp
    | some b =>
      refine ⟨?_, ?_, ?_⟩ <;> simp [build_filt, dset, dget, hasKey]
  | some c =>
    have hc : ¬c = "" := hvalid c rfl
    cases featured with
    | none =>
      refine ⟨?_, ?_, ?_⟩ <;> simp [build_filt, dset, dget, hasKey, hc]
    | some b =>
      refine ⟨?_, ?_, ?_⟩ <;> simp [build_filt, dset, dget, hasKey, hc]

/-- C2 (witness): the theorem applied to `category="plush"`,
`featured=false`. -/
theorem build_filt_exact_keys_witness :
    dget (build_filt (some "plush") (some false)) "category" = some (Val.vStr "plush") ∧
    dget (build_filt (some "plush") (some false)) "featured" = some (Val.vBool false) ∧
    ∀ p ∈ build_filt (some "plush") (some false), p.1 = "category" ∨ p.1 = "featured" :=
  build_filt_exact_keys (some "plush") (some false)
    (fun s hs => by cases hs; decide)

/-- C3: if the store read fails with any error, both listing handlers
return the empty list as their (successful) result instead of propagating
the failure; the store read is the only fallible step of the embedded
orchestration. -/
theorem listing_store_error_returns_empty :
    (∀ (find : Find) (category : Option String) (featured : Option Bool)
        (limit : Int) (e : String),
        find (build_filt category featured) limit = .error e →
        list_products find category featured limit = []) ∧
    (∀ (find : Find) (limit : Int) (e : String),
        find [("featured", Val.vBool true)] limit = .error e →
        featured_products find limit = []) := by
  constructor
  · intro find category featured limit e h
    unfold list_products
    rw [h]
  · intro find limit e h
    unfold featured_products
    rw [h]

/-- C3 (witness): both handlers on a store whose every read fails. -/
theorem listing_store_error_returns_empty_witness :
    list_products (fun _ _ => .error "store unavailable") none none 24 = [] ∧
    featured_products (fun _ _ => .error "store unavailable") 8 = [] :=
  ⟨listing_store_error_returns_empty.1 _ none none 24 "store unavailable" rfl,
   listing_store_error_returns_empty.2 _ 8 "store unavailable" rfl⟩

/-- C4 (counterexample): the claim fails as stated.  In a document carrying
both a truthy `"_id"` and a preexisting `"id"` key, the `"id"` value — plain
text, hence in the pass-through class — does not pass through unchanged: it
is overwritten by the stringified identifier. -/
theorem serialize_doc_pass_through_counterexample :
    JsonSafe (Val.vStr "b") ∧
    dget [("_id", Val.vStr "a"), ("id", Val.vStr "b")] "id" = some (Val.vStr "b") ∧
    dget (serialize_doc [("_id", Val.vStr "a"), ("id", Val.vStr "b")]) "id" =
      some (Val.vStr "a") ∧
    ¬(Val.vStr "a" = Val.vStr "b") :=
  ⟨JsonSafe.str "b", rfl, rfl, by simp⟩

/-- C4 (amended): for every key other than the identifier keys `"_id"` and
`"id"` (the latter may be overwritten by identifier normalization), a
datetime value is replaced by its ISO-8601 text and every JSON-safe value
(text, number, boolean, null, or sequences/mappings thereof) passes through
unchanged. -/
theorem serialize_doc_value_conversion_amended (doc : Doc) (k : String) (v : Val)
    (h1 : ¬k = "_id") (h2 : ¬k = "id") (hv : dget doc k = some v) :
    (∀ t, v = Val.vDt t → dget (serialize_doc doc) k = some (.vStr t.isoformat)) ∧
    (JsonSafe v → dget (serialize_doc doc) k = some v) := by
  have key : dget (serialize_doc doc) k = some (convTop v) := by
    rw [dget_serialize_ne doc k h1 h2, hv]
    rfl
  constructor
  · intro t ht
    subst ht
    simpa [convTop] using key
  · intro hs
    rwa [convTop_of_jsonSafe v hs] at key

/-- C4 (witness): the amended theorem applied to a document with a
top-level datetime under `"created_at"`. -/
theorem serialize_doc_value_conversion_amended_witness :
    dget (serialize_doc [("created_at", Val.vDt ⟨2024, 1, 15, 10, 30, 0⟩)]) "created_at" =
      some (.vStr "2024-01-15T10:30:00") :=
  (serialize_doc_value_conversion_amended
    [("created_at", Val.vDt ⟨2024, 1, 15, 10, 30, 0⟩)] "created_at"
    (Val.vDt ⟨2024, 1, 15, 10, 30, 0⟩)
    (by decide) (by decide) rfl).1 ⟨2024, 1, 15, 10, 30, 0⟩ rfl

/-- C5: re-serializing the output of `serialize_doc` leaves every
non-identifier field unchanged (in particular timestamps already converted
to text pass through as-is on the second pass). -/
theorem serialize_doc_idempotent_nonid (doc : Doc) (k : String)
    (h1 : ¬k = "id") (h2 : ¬k = "_id") :
    dget (serialize_doc (serialize_doc doc)) k = dget (serialize_doc doc) k := by
  rw [dget_serialize_ne (serialize_doc doc) k h2 h1,
    dget_serialize_ne doc k h2 h1]
  cases hd : dget doc k with
  | none => rfl
  | some v => simp [convTop_idem]

/-- C5 (witness): a document whose timestamp is converted on the first pass
and untouched on the second. -/
theorem serialize_doc_idempotent_nonid_witness :
    dget (serialize_doc (serialize_doc
        [("created_at", Val.vDt ⟨2024, 1, 15, 10, 30, 0⟩)])) "created_at" =
      dget (serialize_doc [("created_at", Val.vDt ⟨2024, 1, 15, 10, 30, 0⟩)]) "created_at" :=
  serialize_doc_idempotent_nonid _ "created_at" (by decide) (by decide)

/-- C6 (counterexample): the claim fails as stated.  A document lacking
`"_id"` but already carrying an `"id"` key serializes to an output that does
contain `"id"`, contradicting "the output has no id key"; the function only
refrains from adding one. -/
theorem serialize_doc_missing_id_counterexample :
    hasKey [("id", Val.vStr "x")] "_id" = false ∧
    hasKey (serialize_doc [("id", Val.vStr "x")]) "id" = true :=
  ⟨rfl, rfl⟩

/-- C6 (amended): on an input lacking the reserved identifier key,
`serialize_doc` succeeds (it is total) and adds no `"id"` key: if the input
also lacks `"id"`, so does the output. -/
theorem serialize_doc_missing_id_amended (doc : Doc)
    (h : hasKey doc "_id" = false) (h2 : hasKey doc "id" = false) :
    hasKey (serialize_doc doc) "id" = false := by
  have hn : dget doc "_id" = none := by
    cases hd : dget doc "_id" with
    | none => rfl
    | some v =>
      rw [hasKey_eq_isSome_dget, hd] at h
      simp at h
  have hid : idStep doc = doc := by
    unfold idStep
    rw [hn]
  unfold serialize_doc
  rw [hid, hasKey_dtStep]
  exact h2

/-- C6 (witness): the amended theorem on a document with neither identifier
key. -/
theorem serialize_doc_missing_id_amended_witness :
    hasKey (serialize_doc [("title", Val.vStr "X")]) "id" = false :=
  serialize_doc_missing_id_amended [("title", Val.vStr "X")] rfl rfl

/-- C7: `limit` is validated against its closed inclusive range before any
store read — `1..100` with default `24` for `GET /api/products`, `1..24`
with default `8` for `GET /api/featured`.  An out-of-range limit is
rejected as a validation error for every store `find` (so the store is
never consulted), and an in-range limit is passed through exactly, never
clamped. -/
theorem limit_validation_bounds :
    (∀ (find : Find) (c : Option String) (f : Option Bool) (n : Int),
        (n < 1 ∨ 100 < n) →
        list_products_endpoint find c f (some n) = .error "validation error") ∧
    (∀ (find : Find) (c : Option String) (f : Option Bool) (n : Int),
        1 ≤ n → n ≤ 100 →
        list_products_endpoint find c f (some n) = .ok (list_products find c f n)) ∧
    (∀ (find : Find) (c : Option String) (f : Option Bool),
        list_products_endpoint find c f none = .ok (list_products find c f 24)) ∧
    (∀ (find : Find) (n : Int), (n < 1 ∨ 24 < n) →
        featured_endpoint find (some n) = .error "validation error") ∧
    (∀ (find : Find) (n : Int), 1 ≤ n → n ≤ 24 →
        featured_endpoint find (some n) = .ok (featured_products find n)) ∧
    (∀ (find : Find), featured_endpoint find none = .ok (featured_products find 8)) := by
  refine ⟨?_, ?_, ?_, ?_, ?_, ?_⟩
  · intro find c f n h
    have hn : ¬(1 ≤ n ∧ n ≤ 100) := by omega
    simp [list_products_endpoint, validate_query_int, hn, Except.map]
  · intro find c f n ha hb
    simp [list_products_endpoint, validate_query_int, ha, hb, Except.map]
  · intro find c f
    simp [list_products_endpoint, validate_query_int, Except.map]
  · intro find n h
    have hn : ¬(1 ≤ n ∧ n ≤ 24) := by omega
    simp [featured_endpoint, validate_query_int, hn, Except.map]
  · intro find n ha hb
    simp [featured_endpoint, validate_query_int, ha, hb, Except.map]
  · intro find
    simp [featured_endpoint, validate_query_int, Except.map]

/-- C7 (witness): `limit=101` and `limit=25` are rejected on their
respective endpoints; `limit=100` is accepted and passed through. -/
theorem limit_validation_bounds_witness :
    list_products_endpoint (fun _ _ => .ok []) none none (some 101) =
      .error "validation error" ∧
    featured_endpoint (fun _ _ => .ok []) (some 25) = .error "validation error" ∧
    list_products_endpoint (fun _ _ => .ok []) none none (some 100) =
      .ok (list_products (fun _ _ => .ok []) none none 100) :=
  ⟨limit_validation_bounds.1 _ none none 101 (Or.inr (by decide)),
   limit_validation_bounds.2.2.2.1 _ 25 (Or.inr (by decide)),
   limit_validation_bounds.2.1 _ none none 100 (by decide) (by decide)⟩

/-- C8: `serialize_doc` never mutates its argument object.  At the heap
level, the function first copies the document (`d = doc.copy()`) and every
subsequent mutation targets the copy, so after the call the input reference
still holds exactly the original entries, and the returned reference is a
distinct object holding the serialized value. -/
theorem serialize_doc_ref_no_mutation (h : Heap) (r : Nat) (doc : Doc)
    (hwf : Heap.WF h) (hr : h.read r = some doc) :
    ∃ rh : Nat × Heap, serialize_doc_ref h r = some rh ∧
      rh.1 ≠ r ∧ rh.2.read r = some doc ∧
      rh.2.read rh.1 = some (serialize_doc doc) := by
  have hne : ¬r = h.next := by
    intro contra
    have hnone := hwf h.next (le_refl _)
    rw [Heap.read, contra, hnone] at hr
    exact Option.noConfusion hr
  refine ⟨(h.next,
      ((h.alloc doc).2.write h.next (idStep doc)).write h.next
        (dtStep (idStep doc))), ?_, ?_, ?_, ?_⟩
  · unfold serialize_doc_ref
    rw [hr]
    rfl
  · exact fun c => hne c.symm
  · rw [Heap.read] at hr
    simp [Heap.read, Heap.write, Heap.alloc, hne, hr]
  · simp [Heap.read, Heap.write, Heap.alloc, serialize_doc]

/-- C8 (witness): the theorem on a one-object heap. -/
theorem serialize_doc_ref_no_mutation_witness :
    ∃ rh : Nat × Heap,
      serialize_doc_ref
          ⟨1, fun x => if x = 0 then some [("_id", Val.vStr "a")] else none⟩ 0 =
        some rh ∧
      rh.1 ≠ 0 ∧
      rh.2.read 0 = some [("_id", Val.vStr "a")] ∧
      rh.2.read rh.1 = some (serialize_doc [("_id", Val.vStr "a")]) :=
  serialize_doc_ref_no_mutation _ 0 _
    (fun x hx => by
      have hx1 : 1 ≤ x := hx
      have hx0 : ¬x = 0 := by omega
      simp [hx0])
    rfl

/-- C9: supplying `category` as the empty string adds no equality
constraint: the built filter, and the whole products listing, coincide with
the category-omitted request, because the handler gates on Python
truthiness (`if category:`). -/
theorem empty_category_same_as_omitted :
    (∀ featured : Option Bool,
      build_filt (some "") featured = build_filt none featured) ∧
    (∀ (find : Find) (featured : Option Bool) (limit : Int),
      list_products find (some "") featured limit =
        list_products find none featured limit) := by
  constructor
  · intro featured
    rfl
  · intro find featured limit
    rfl

/-- C10 (counterexample): the claim fails as stated.  When a truthy `"_id"`
coexists with an `"id"` key holding a sequence that contains a datetime,
that nested value is not passed through: the whole `"id"` entry is
overwritten by the stringified identifier. -/
theorem serialize_doc_nested_datetime_counterexample :
    dget [("_id", Val.vStr "a"),
        ("id", Val.vList [Val.vDt ⟨2024, 1, 15, 10, 30, 0⟩])] "id" =
      some (Val.vList [Val.vDt ⟨2024, 1, 15, 10, 30, 0⟩]) ∧
    dget (serialize_doc [("_id", Val.vStr "a"),
        ("id", Val.vList [Val.vDt ⟨2024, 1, 15, 10, 30, 0⟩])]) "id" =
      some (Val.vStr "a") ∧
    ¬(Val.vStr "a" = Val.vList [Val.vDt ⟨2024, 1, 15, 10, 30, 0⟩]) :=
  ⟨rfl, rfl, fun c => Val.noConfusion c⟩

/-- C10 (amended): `serialize_doc` converts only top-level datetimes: under
every key other than the identifier keys `"_id"` and `"id"` (the latter may
be overwritten by identifier normalization), a sequence or nested mapping —
datetimes inside it included — is passed through entirely unconverted. -/
theorem serialize_doc_nested_datetime_amended (doc : Doc) (k : String)
    (h1 : ¬k = "_id") (h2 : ¬k = "id") :
    (∀ l, dget doc k = some (Val.vList l) →
      dget (serialize_doc doc) k = some (Val.vList l)) ∧
    (∀ m, dget doc k = some (Val.vDict m) →
      dget (serialize_doc doc) k = some (Val.vDict m)) := by
  constructor
  · intro l hl
    rw [dget_serialize_ne doc k h1 h2, hl]
    rfl
  · intro m hm
    rw [dget_serialize_ne doc k h1 h2, hm]
    rfl

/-- C10 (witness): a list holding a datetime under a regular key survives
serialization unconverted. -/
theorem serialize_doc_nested_datetime_amended_witness :
    dget (serialize_doc
        [("tags", Val.vList [Val.vDt ⟨2024, 1, 15, 10, 30, 0⟩])]) "tags" =
      some (Val.vList [Val.vDt ⟨2024, 1, 15, 10, 30, 0⟩]) :=
  (serialize_doc_nested_datetime_amended
    [("tags", Val.vList [Val.vDt ⟨2024, 1, 15, 10, 30, 0⟩])] "tags"
    (by decide) (by decide)).1 [Val.vDt ⟨2024, 1, 15, 10, 30, 0⟩] rfl

end Riftlol
